import Mathlib

/-!
Shallow embedding of the price-alert and copy-trade monitoring core of the
zoracle telegram bot (src/trading/alerts.py and src/trading/copytrade.py),
with theorems checking the natural-language specification against it.

Python dictionaries are modelled as insertion-ordered association lists
(`dictLookup`, `dictUpdate`, `dictSet`, `dictErase` mirror `d[k]`,
update-or-insert, assignment, and `del d[k]`; all module code keeps keys
unique).  Prices, liquidity and ETH amounts are modelled as rationals.
External collaborators (`get_token_price`, `get_token_liquidity`,
`web3.is_address`, the user database) are modelled as environment records;
a fetch that raises an exception is an environment returning `none`.
`get_token_info` is modelled as total (no claim concerns its failure), and
presentational payload (token name/symbol, message text) is omitted from
event records.
-/

namespace Zoracle

/-- `d.get(k)`: first binding wins; the operations below keep keys unique,
matching a Python dict. -/
def dictLookup {α : Type} : List (String × α) → String → Option α
  | [], _ => none
  | (k', v) :: rest, k => if k' = k then some v else dictLookup rest k

/-- `k in d`. -/
def dictContains {α : Type} (d : List (String × α)) (k : String) : Bool :=
  (dictLookup d k).isSome

/-- Update the value at `k` in place if present, else append `(k, f d0)` at
the end — the net effect of Python's `if k not in d: d[k] = d0` followed by
field assignments. -/
def dictUpdate {α : Type} (d0 : α) (f : α → α) : List (String × α) → String → List (String × α)
  | [], k => [(k, f d0)]
  | (k', v) :: rest, k =>
    if k' = k then (k', f v) :: rest else (k', v) :: dictUpdate d0 f rest k

/-- `d[k] = v`: overwrite in place if present, else append. -/
def dictSet {α : Type} : List (String × α) → String → α → List (String × α)
  | [], k, v => [(k, v)]
  | (k', v') :: rest, k, v =>
    if k' = k then (k', v) :: rest else (k', v') :: dictSet rest k v

/-- `del d[k]` (key present at most once). -/
def dictErase {α : Type} : List (String × α) → String → List (String × α)
  | [], _ => []
  | (k', v) :: rest, k => if k' = k then rest else (k', v) :: dictErase rest k

namespace Alerts

/-- One entry of `price_alerts[token_address]`
(src/trading/alerts.py line 26): `{telegram_id, price_high, price_low}`.
`none` is Python `None`. -/
structure Alert where
  telegram_id : String
  price_high : Option ℚ
  price_low : Option ℚ
deriving DecidableEq, Repr

/-- One entry of `token_data` (src/trading/alerts.py line 30).  Fields are
optional because `check_price_alerts` creates the entry as an empty dict and
assigns only the price fields. -/
structure TokenRecord where
  price_eth : Option ℚ := none
  price_usd : Option ℚ := none
  eth_liquidity : Option ℚ := none
  token_liquidity : Option ℚ := none
deriving DecidableEq, Repr

/-- The module-level mutable state of src/trading/alerts.py. -/
structure AlertState where
  price_alerts : List (String × List Alert)
  token_data : List (String × TokenRecord)
deriving DecidableEq, Repr

/-- External collaborators of the alerts module.  `price tok = some (eth,
usd)` is a successful `get_token_price`; `none` means the call raised.
Likewise `liquidity tok = some (ethLiq, tokLiq)` for
`get_token_liquidity`. -/
structure AlertEnv where
  price : String → Option (ℚ × ℚ)
  liquidity : String → Option (ℚ × ℚ)
  userExists : String → Bool
  watchlistExists : String → String → Bool

inductive PriceAlertKind
  | high
  | low
deriving DecidableEq, Repr

/-- A triggered price alert (an element of the `triggered_alerts` list built
by `check_price_alerts`); name/symbol/message payload omitted. -/
structure PriceAlertEvent where
  kind : PriceAlertKind
  telegram_id : String
  token_address : String
  threshold : ℚ
  current_price : ℚ
deriving DecidableEq, Repr

/-- Body of the per-alert loop of `check_price_alerts`
(src/trading/alerts.py lines 272–309): `if price_high and previous_price <
price_high and current_price >= price_high` appends a `price_high` event,
then the symmetric `price_low` check.  Python truthiness makes a `None` or
`0.0` threshold inert, hence the `t ≠ 0` conjunct. -/
def alertEventsFor (token_address : String) (previous_price current_price : ℚ)
    (a : Alert) : List PriceAlertEvent :=
  (match a.price_high with
   | none => []
   | some t =>
     if t ≠ 0 ∧ previous_price < t ∧ current_price ≥ t then
       [⟨.high, a.telegram_id, token_address, t, current_price⟩]
     else []) ++
  (match a.price_low with
   | none => []
   | some t =>
     if t ≠ 0 ∧ previous_price > t ∧ current_price ≤ t then
       [⟨.low, a.telegram_id, token_address, t, current_price⟩]
     else [])

/-- The per-token loop of `check_price_alerts` (src/trading/alerts.py lines
255–312), folded over the `price_alerts` items with the evolving
`token_data`.  A failed `get_token_price` hits the per-token `except`: the
token is skipped, nothing is recorded.  On success the previous price
defaults to the current one when no record exists, the record's price
fields are updated, and the alert loop runs. -/
def runPriceChecks (env : AlertEnv) :
    List (String × List Alert) → List (String × TokenRecord) →
    List (String × TokenRecord) × List PriceAlertEvent
  | [], td => (td, [])
  | (tok, alerts) :: rest, td =>
    match env.price tok with
    | none => runPriceChecks env rest td
    | some (cur, usd) =>
      let prev := (((dictLookup td tok).bind TokenRecord.price_eth).getD cur)
      let td' := dictUpdate {} (fun r => { r with price_eth := some cur, price_usd := some usd }) td tok
      let res := runPriceChecks env rest td'
      (res.1, alerts.flatMap (alertEventsFor tok prev cur) ++ res.2)

/-- `check_price_alerts` (src/trading/alerts.py lines 244–317): returns the
updated module state and the list of triggered alerts. -/
def checkPriceAlerts (env : AlertEnv) (s : AlertState) :
    AlertState × List PriceAlertEvent :=
  let res := runPriceChecks env s.price_alerts s.token_data
  ({ s with token_data := res.1 }, res.2)

/-- Python's built-in `abs` on a rational. -/
def pyAbs (q : ℚ) : ℚ := if q < 0 then -q else q

/-- A `liquidity_change` entry built by `check_liquidity_changes`
(src/trading/alerts.py lines 364–374); name/symbol/message payload
omitted. -/
structure LiquidityAlertEvent where
  telegram_id : String
  token_address : String
  previous_liquidity : ℚ
  current_liquidity : ℚ
  change_percent : ℚ
deriving DecidableEq, Repr

/-- The `users` set of `check_liquidity_changes` (src/trading/alerts.py
lines 354–358): the distinct telegram ids holding a price alert for the
token.  Python iterates a `set` in unspecified order; `dedup` fixes
first-occurrence order, which no claim depends on. -/
def liquidityUsers (price_alerts : List (String × List Alert)) (tok : String) :
    List String :=
  (((dictLookup price_alerts tok).getD []).map Alert.telegram_id).dedup

/-- The per-token loop of `check_liquidity_changes` (src/trading/alerts.py
lines 330–377) folded over the `token_data` items.  A failed
`get_token_liquidity` hits the per-token `except`: the record is left
unchanged.  On success the record's liquidity fields are updated, the
percentage change versus the prior record (defaulting to the current value,
and to 0 when the prior value is not positive) is computed, and if its
absolute value is at least 20 one event per subscribed user is emitted. -/
def runLiquidityChecks (env : AlertEnv) (price_alerts : List (String × List Alert)) :
    List (String × TokenRecord) →
    List (String × TokenRecord) × List LiquidityAlertEvent
  | [] => ([], [])
  | (tok, r) :: rest =>
    match env.liquidity tok with
    | none =>
      let res := runLiquidityChecks env price_alerts rest
      ((tok, r) :: res.1, res.2)
    | some (cur, tokLiq) =>
      let prev := r.eth_liquidity.getD cur
      let r' := { r with eth_liquidity := some cur, token_liquidity := some tokLiq }
      let change := if prev > 0 then (cur / prev - 1) * 100 else 0
      let evs :=
        if pyAbs change ≥ 20 then
          (liquidityUsers price_alerts tok).map
            (fun u => LiquidityAlertEvent.mk u tok prev cur change)
        else []
      let res := runLiquidityChecks env price_alerts rest
      ((tok, r') :: res.1, evs ++ res.2)

/-- `check_liquidity_changes` (src/trading/alerts.py lines 319–382). -/
def checkLiquidityChanges (env : AlertEnv) (s : AlertState) :
    AlertState × List LiquidityAlertEvent :=
  let res := runLiquidityChecks env s.price_alerts s.token_data
  ({ s with token_data := res.1 }, res.2)

/-- Distinguishable outcomes of `add_price_alert`.  `errorException` is the
outer `except` branch reached when `get_token_price`/`get_token_liquidity`
raises after the alert was already appended. -/
inductive AddAlertResult
  | userNotFound
  | watchlistNotFound
  | updated
  | added
  | errorException
deriving DecidableEq, Repr

/-- `add_price_alert` (src/trading/alerts.py lines 32–144).  The user
lookup and optional watchlist lookup happen first; then the token's alert
list is created if absent, an existing alert for the same telegram id is
updated in place (early return, `token_data` untouched), otherwise a new
alert is appended and — only when the token has no `token_data` record yet —
a baseline price/liquidity record is fetched and stored.  The watchlist
database write is external and not modelled. -/
def addPriceAlert (env : AlertEnv) (s : AlertState) (telegram_id tok : String)
    (price_high price_low : Option ℚ) (watchlist_name : Option String) :
    AlertState × AddAlertResult :=
  if ¬ env.userExists telegram_id then (s, .userNotFound)
  else if (match watchlist_name with
           | some w => ¬ env.watchlistExists telegram_id w
           | none => false : Bool) then (s, .watchlistNotFound)
  else
    let store0 := if dictContains s.price_alerts tok then s.price_alerts
                  else s.price_alerts ++ [(tok, [])]
    let alerts := (dictLookup store0 tok).getD []
    match alerts.findIdx? (fun a => a.telegram_id = telegram_id) with
    | some i =>
      let store1 := dictSet store0 tok (alerts.set i ⟨telegram_id, price_high, price_low⟩)
      ({ s with price_alerts := store1 }, .updated)
    | none =>
      let store1 := dictSet store0 tok (alerts ++ [⟨telegram_id, price_high, price_low⟩])
      let s1 : AlertState := { s with price_alerts := store1 }
      if dictContains s.token_data tok then (s1, .added)
      else
        match env.price tok, env.liquidity tok with
        | some (pe, pu), some (el, tl) =>
          ({ s1 with token_data := s1.token_data ++ [(tok, ⟨some pe, some pu, some el, some tl⟩)] }, .added)
        | _, _ => (s1, .errorException)

/-- Outcomes of `remove_price_alert`; the two error outcomes both carry
`error = "Alert not found"` in the returned dictionary. -/
inductive RemoveAlertResult
  | success
  | errNoAlertsForToken
  | errNoAlertForUser
deriving DecidableEq, Repr

/-- The `error` field of the dictionary `remove_price_alert` returns
(src/trading/alerts.py lines 160–163, 174–183). -/
def RemoveAlertResult.errorField : RemoveAlertResult → Option String
  | .success => none
  | .errNoAlertsForToken => some "Alert not found"
  | .errNoAlertForUser => some "Alert not found"

/-- `remove_price_alert` (src/trading/alerts.py lines 146–190): if the
token has no alert list, return the "Alert not found" error; otherwise pop
the caller's alert if present (deleting the token's now-empty list key),
else return the "Alert not found" error.  `token_data` is never touched. -/
def removePriceAlert (s : AlertState) (telegram_id tok : String) :
    AlertState × RemoveAlertResult :=
  match dictLookup s.price_alerts tok with
  | none => (s, .errNoAlertsForToken)
  | some alerts =>
    match alerts.findIdx? (fun a => a.telegram_id = telegram_id) with
    | none => (s, .errNoAlertForUser)
    | some i =>
      let alerts' := alerts.eraseIdx i
      if alerts'.isEmpty then
        ({ s with price_alerts := dictErase s.price_alerts tok }, .success)
      else
        ({ s with price_alerts := dictSet s.price_alerts tok alerts' }, .success)

/-- The alert list registered for a token (`price_alerts.get(tok, [])`). -/
def alertsFor (s : AlertState) (tok : String) : List Alert :=
  (dictLookup s.price_alerts tok).getD []

/-- Number of `price_high` events for a given subscriber and threshold. -/
def countHighEvents (telegram_id : String) (threshold : ℚ)
    (evs : List PriceAlertEvent) : Nat :=
  evs.countP (fun e =>
    decide (e.kind = .high ∧ e.telegram_id = telegram_id ∧ e.threshold = threshold))

/-- Number of `price_low` events for a given subscriber and threshold. -/
def countLowEvents (telegram_id : String) (threshold : ℚ)
    (evs : List PriceAlertEvent) : Nat :=
  evs.countP (fun e =>
    decide (e.kind = .low ∧ e.telegram_id = telegram_id ∧ e.threshold = threshold))

/-- Number of `price_high` events for a given subscriber and token. -/
def countHighForToken (telegram_id tok : String) (evs : List PriceAlertEvent) : Nat :=
  evs.countP (fun e =>
    decide (e.kind = .high ∧ e.telegram_id = telegram_id ∧ e.token_address = tok))

/-- Total number of alert entries for a given subscriber stored under a
given token across the whole store (with unique keys this is the number of
subscriptions for the (subscriber, token) pair). -/
def tidAlertCount (tok telegram_id : String)
    (price_alerts : List (String × List Alert)) : Nat :=
  ((price_alerts.filter (fun p => decide (p.1 = tok))).flatMap Prod.snd).countP
    (fun a => decide (a.telegram_id = telegram_id))

end Alerts

namespace CopyTrade

/-- One entry of `monitored_wallets[target_wallet]`
(src/trading/copytrade.py lines 77–83).  `active_flag` models the `"active"`
key that `update_copy_trading` may later add to the dict (line 154); the
entry is created without it and `process_transaction` never reads it. -/
structure WalletConfig where
  telegram_id : String
  config_id : Nat
  slippage_guard : ℚ
  max_eth_per_trade : ℚ
  sandbox_mode : Bool
  active_flag : Option Bool := none
deriving DecidableEq, Repr

/-- A `CopyTradeConfig` database row (src/database/operations.py lines
183–204): persisted history, updated but never deleted. -/
structure DBConfig where
  id : Nat
  telegram_id : String
  target_wallet : String
  slippage_guard : ℚ
  active : Bool
  sandbox_mode : Bool
  max_eth_per_trade : ℚ
deriving DecidableEq, Repr

/-- The state touched by src/trading/copytrade.py: the two module-level
stores (`monitored_wallets`, `processed_transactions`) plus the copy-trade
rows of the database; `nextConfigId` models the autoincrement id column. -/
structure CopyState where
  monitored_wallets : List (String × List WalletConfig)
  processed_transactions : List String
  db : List DBConfig
  nextConfigId : Nat
deriving DecidableEq, Repr

/-- External collaborators of the copy-trade module: address syntax check
(`web3_client.is_address`), the user-row checks of `setup_copy_trading`
(`not user or not user.wallet_address`), `update_copy_trading` (`not user`)
and `process_transaction` (`not user or not user.wallet_address or not
user.encrypted_private_key`). -/
structure CopyEnv where
  isAddress : String → Bool
  userHasWallet : String → Bool
  userExists : String → Bool
  userHasWalletAndKey : String → Bool

/-- A transaction as consumed by `process_transaction`; `sender` is the
`"from"` field. -/
structure Tx where
  hash : String
  sender : String
  receiver : String
  value : ℚ
deriving DecidableEq, Repr

/-- The per-user copy action of `process_transaction`
(src/trading/copytrade.py lines 263–285): one mirror intent per matching
configuration, carrying that configuration's limits and the source
transaction id. -/
structure MirrorIntent where
  telegram_id : String
  config_id : Nat
  slippage_guard : ℚ
  max_eth_per_trade : ℚ
  sandbox_mode : Bool
  source_tx : String
deriving DecidableEq, Repr

/-- Outcomes of `setup_copy_trading`. -/
inductive SetupResult
  | invalidAddress
  | noWallet
  | ok (config_id : Nat)
deriving DecidableEq, Repr

/-- `setup_copy_trading` (src/trading/copytrade.py lines 32–100): validate
the target address syntactically, require the caller to have a wallet,
create the database row (active, with the given limits verbatim — the
function performs no range check on `slippage_guard` or
`max_eth_per_trade`), and append the configuration to
`monitored_wallets[target_wallet]`. -/
def setupCopyTrading (env : CopyEnv) (s : CopyState) (telegram_id target_wallet : String)
    (slippage_guard max_eth_per_trade : ℚ) (sandbox_mode : Bool) :
    CopyState × SetupResult :=
  if ¬ env.isAddress target_wallet then (s, .invalidAddress)
  else if ¬ env.userHasWallet telegram_id then (s, .noWallet)
  else
    let cid := s.nextConfigId
    let row : DBConfig :=
      ⟨cid, telegram_id, target_wallet, slippage_guard, true, sandbox_mode, max_eth_per_trade⟩
    let entry : WalletConfig :=
      ⟨telegram_id, cid, slippage_guard, max_eth_per_trade, sandbox_mode, none⟩
    let mw0 := if dictContains s.monitored_wallets target_wallet then s.monitored_wallets
               else s.monitored_wallets ++ [(target_wallet, [])]
    let mw1 := dictSet mw0 target_wallet (((dictLookup mw0 target_wallet).getD []) ++ [entry])
    ({ s with db := s.db ++ [row], nextConfigId := cid + 1, monitored_wallets := mw1 },
     .ok cid)

/-- Field update applied to a matched in-memory configuration by
`update_copy_trading` (src/trading/copytrade.py lines 147–163) when it is
not being deactivated: `cfg["active"] = active` only on the `active=True`
branch, then each optional limit if provided. -/
def applyCfgUpdate (active : Option Bool) (slippage_guard : Option ℚ)
    (sandbox_mode : Option Bool) (max_eth_per_trade : Option ℚ)
    (cfg : WalletConfig) : WalletConfig :=
  let cfg := match active with
             | some true => { cfg with active_flag := some true }
             | _ => cfg
  let cfg := match slippage_guard with
             | some g => { cfg with slippage_guard := g }
             | none => cfg
  let cfg := match sandbox_mode with
             | some b => { cfg with sandbox_mode := b }
             | none => cfg
  match max_eth_per_trade with
  | some m => { cfg with max_eth_per_trade := m }
  | none => cfg

/-- The `for wallet, configs in monitored_wallets.items()` scan of
`update_copy_trading` (src/trading/copytrade.py lines 144–165).  For each
wallet in insertion order, the first configuration with the given id is
updated in place, or — when `active = some false` — popped, with the wallet
key deleted if its list becomes empty.  Deleting a key while iterating a
Python dict makes the next iteration step raise `RuntimeError`, so the
remaining wallets are left unscanned and the caller lands in its `except`
branch; the `Bool` component records that event.  (The inner `break` only
ends the per-wallet scan, so without a deletion the outer scan continues
and could match the same id under another wallet.) -/
def scanWallets (config_id : Nat) (active : Option Bool) (slippage_guard : Option ℚ)
    (sandbox_mode : Option Bool) (max_eth_per_trade : Option ℚ) :
    List (String × List WalletConfig) →
    List (String × List WalletConfig) × Bool
  | [] => ([], false)
  | (w, cfgs) :: rest =>
    match cfgs.findIdx? (fun c => c.config_id = config_id) with
    | none =>
      let res := scanWallets config_id active slippage_guard sandbox_mode max_eth_per_trade rest
      ((w, cfgs) :: res.1, res.2)
    | some i =>
      if active = some false then
        let cfgs' := cfgs.eraseIdx i
        if cfgs'.isEmpty then (rest, true)
        else
          let res := scanWallets config_id active slippage_guard sandbox_mode max_eth_per_trade rest
          ((w, cfgs') :: res.1, res.2)
      else
        let cfgs' :=
          match cfgs[i]? with
          | some c => cfgs.set i
              (applyCfgUpdate active slippage_guard sandbox_mode max_eth_per_trade c)
          | none => cfgs
        let res := scanWallets config_id active slippage_guard sandbox_mode max_eth_per_trade rest
        ((w, cfgs') :: res.1, res.2)

/-- `update_copy_trade_config` (src/database/operations.py lines 206–225):
partial in-place update of the row with the given id; `none` when no such
row exists. -/
def dbUpdate (config_id : Nat) (active : Option Bool) (slippage_guard : Option ℚ)
    (sandbox_mode : Option Bool) (max_eth_per_trade : Option ℚ) :
    List DBConfig → Option (List DBConfig)
  | [] => none
  | row :: rest =>
    if row.id = config_id then
      some ({ row with
              active := active.getD row.active,
              slippage_guard := slippage_guard.getD row.slippage_guard,
              sandbox_mode := sandbox_mode.getD row.sandbox_mode,
              max_eth_per_trade := max_eth_per_trade.getD row.max_eth_per_trade } :: rest)
    else
      (dbUpdate config_id active slippage_guard sandbox_mode max_eth_per_trade rest).map
        (fun rest' => row :: rest')

/-- Outcomes of `update_copy_trading`; `runtimeErrorAfterDelete` is the
generic `except` result produced when the dict-iteration `RuntimeError`
fires after a wallet key was deleted (all mutations up to that point
persist). -/
inductive UpdateResult
  | userNotFound
  | configNotFound
  | success
  | runtimeErrorAfterDelete
deriving DecidableEq, Repr

/-- `update_copy_trading` (src/trading/copytrade.py lines 102–182): user
lookup, database row update (NotFound if the id is unknown), then the
in-memory `monitored_wallets` scan. -/
def updateCopyTrading (env : CopyEnv) (s : CopyState) (telegram_id : String)
    (config_id : Nat) (active : Option Bool) (slippage_guard : Option ℚ)
    (sandbox_mode : Option Bool) (max_eth_per_trade : Option ℚ) :
    CopyState × UpdateResult :=
  if ¬ env.userExists telegram_id then (s, .userNotFound)
  else
    match dbUpdate config_id active slippage_guard sandbox_mode max_eth_per_trade s.db with
    | none => (s, .configNotFound)
    | some db' =>
      let res := scanWallets config_id active slippage_guard sandbox_mode max_eth_per_trade
        s.monitored_wallets
      let s' := { s with db := db', monitored_wallets := res.1 }
      (s', if res.2 then .runtimeErrorAfterDelete else .success)

/-- `process_transaction` (src/trading/copytrade.py lines 233–291): return
immediately if the hash was already processed; otherwise mark it processed
FIRST, then — only if the sender is a monitored wallet — emit one mirror
intent per subscribed configuration whose user still has a wallet and
key. -/
def processTransaction (env : CopyEnv) (s : CopyState) (tx : Tx) :
    CopyState × List MirrorIntent :=
  if tx.hash ∈ s.processed_transactions then (s, [])
  else
    let s' := { s with processed_transactions := tx.hash :: s.processed_transactions }
    match dictLookup s.monitored_wallets tx.sender with
    | none => (s', [])
    | some cfgs =>
      (s', cfgs.filterMap (fun c =>
        if env.userHasWalletAndKey c.telegram_id then
          some ⟨c.telegram_id, c.config_id, c.slippage_guard, c.max_eth_per_trade,
                c.sandbox_mode, tx.hash⟩
        else none))

/-- A (state-relevant) operation of the copy-trade module, used to phrase
properties that hold across any interleaving of module calls. -/
inductive CopyOp
  | setup (telegram_id target_wallet : String) (slippage_guard max_eth_per_trade : ℚ)
      (sandbox_mode : Bool)
  | update (telegram_id : String) (config_id : Nat) (active : Option Bool)
      (slippage_guard : Option ℚ) (sandbox_mode : Option Bool)
      (max_eth_per_trade : Option ℚ)
  | processTx (tx : Tx)

/-- State effect of one module call. -/
def applyOp (env : CopyEnv) (s : CopyState) : CopyOp → CopyState
  | .setup tid w g m sb => (setupCopyTrading env s tid w g m sb).1
  | .update tid cid a g sb m => (updateCopyTrading env s tid cid a g sb m).1
  | .processTx tx => (processTransaction env s tx).1

/-- State effect of a sequence of module calls. -/
def applyOps (env : CopyEnv) (s : CopyState) : List CopyOp → CopyState
  | [] => s
  | op :: ops => applyOps env (applyOp env s op) ops

/-- `process_transaction` folded over a list of transactions, concatenating
the emitted mirror intents. -/
def processAll (env : CopyEnv) (s : CopyState) :
    List Tx → CopyState × List MirrorIntent
  | [] => (s, [])
  | tx :: txs =>
    let r := processTransaction env s tx
    let res := processAll env r.1 txs
    (res.1, r.2 ++ res.2)

/-- The slippage bound enforced by the conversational input handler
`slippage_guard_input` (src/bot/copytrade_handlers.py lines 73–77): a
typed value is accepted only when `0.1 ≤ v ≤ 50`.  This check lives in the
Telegram UI layer, not in `setup_copy_trading`. -/
def slippageInputAccepted (v : ℚ) : Bool :=
  ¬ (v < 1/10 ∨ v > 50)

/-- The spend bound enforced by the conversational input handler
`max_eth_input` (src/bot/copytrade_handlers.py lines 99–103): a typed value
is accepted only when `v > 0`.  Also a UI-layer check only. -/
def maxEthInputAccepted (v : ℚ) : Bool :=
  ¬ (v ≤ 0)

end CopyTrade

end Zoracle

open Zoracle Zoracle.Alerts Zoracle.CopyTrade

/-! ## Association-list (Python dict) lemmas -/

theorem dictLookup_dictSet_self {α : Type} (l : List (String × α)) (k : String) (v : α) :
    dictLookup (dictSet l k v) k = some v := by
  induction l with
  | nil => simp [dictSet, dictLookup]
  | cons p rest ih =>
    obtain ⟨k', v'⟩ := p
    by_cases h : k' = k
    · simp [dictSet, dictLookup, h]
    · simp [dictSet, dictLookup, h, ih]

theorem dictLookup_dictSet_ne {α : Type} (l : List (String × α)) (k k' : String) (v : α)
    (h : k ≠ k') : dictLookup (dictSet l k v) k' = dictLookup l k' := by
  induction l with
  | nil => simp [dictSet, dictLookup, h]
  | cons p rest ih =>
    obtain ⟨k₀, v₀⟩ := p
    by_cases h₀ : k₀ = k
    · subst h₀; simp [dictSet, dictLookup, h]
    · simp [dictSet, dictLookup, h₀, ih]

theorem dictLookup_dictUpdate_ne {α : Type} (d0 : α) (f : α → α)
    (l : List (String × α)) (k k' : String) (h : k ≠ k') :
    dictLookup (dictUpdate d0 f l k) k' = dictLookup l k' := by
  induction l with
  | nil => simp [dictUpdate, dictLookup, h]
  | cons p rest ih =>
    obtain ⟨k₀, v₀⟩ := p
    by_cases h₀ : k₀ = k
    · subst h₀; simp [dictUpdate, dictLookup, h]
    · simp [dictUpdate, dictLookup, h₀, ih]

/-! ## Copy-trade: processed-set lemmas -/

theorem processTransaction_of_mem (env : CopyEnv) (s : CopyState) (tx : Tx)
    (h : tx.hash ∈ s.processed_transactions) :
    processTransaction env s tx = (s, []) := by
  simp [processTransaction, h]

theorem mem_processed_processTransaction (env : CopyEnv) (s : CopyState) (tx : Tx) :
    tx.hash ∈ (processTransaction env s tx).1.processed_transactions := by
  by_cases h : tx.hash ∈ s.processed_transactions
  · simp [processTransaction, h]
  · cases hm : dictLookup s.monitored_wallets tx.sender <;>
      simp [processTransaction, h, hm]

theorem processed_applyOp_mono (env : CopyEnv) (s : CopyState) (op : CopyOp) :
    s.processed_transactions ⊆ (applyOp env s op).processed_transactions := by
  cases op with
  | setup tid w g m sb =>
    simp only [applyOp, setupCopyTrading]
    split
    · exact fun x hx => hx
    · split
      · exact fun x hx => hx
      · intro x hx; simpa using hx
  | update tid cid a g sb m =>
    simp only [applyOp, updateCopyTrading]
    split
    · exact fun x hx => hx
    · split
      · exact fun x hx => hx
      · intro x hx; simpa using hx
  | processTx tx =>
    by_cases h : tx.hash ∈ s.processed_transactions
    · simp [applyOp, processTransaction, h]
    · have hp : (applyOp env s (.processTx tx)).processed_transactions
          = tx.hash :: s.processed_transactions := by
        cases hm : dictLookup s.monitored_wallets tx.sender <;>
          simp [applyOp, processTransaction, h, hm]
      rw [hp]
      exact fun x hx => List.Mem.tail _ hx

theorem processed_applyOps_mono (env : CopyEnv) (s : CopyState) (ops : List CopyOp) :
    s.processed_transactions ⊆ (applyOps env s ops).processed_transactions := by
  induction ops generalizing s with
  | nil => exact fun x hx => hx
  | cons op ops ih =>
    exact fun x hx => ih (applyOp env s op) (processed_applyOp_mono env s op hx)

/-- C2: once `process_transaction` has seen a transaction, its hash is in
`processed_transactions`; after any further interleaving of module calls
(more processing, new or updated subscriptions), processing the same
transaction again emits no mirror intent, because the processed set is
consulted first and no operation ever removes an identifier. -/
theorem mirror_intent_emitted_at_most_once_per_tx
    (env₀ env₁ env₂ : CopyEnv) (s : CopyState) (tx : Tx) (ops : List CopyOp) :
    tx.hash ∈ (processTransaction env₀ s tx).1.processed_transactions
    ∧ (processTransaction env₂
        (applyOps env₁ (processTransaction env₀ s tx).1 ops) tx).2 = [] := by
  refine ⟨mem_processed_processTransaction env₀ s tx, ?_⟩
  have h2 := processed_applyOps_mono env₁ (processTransaction env₀ s tx).1 ops
    (mem_processed_processTransaction env₀ s tx)
  rw [processTransaction_of_mem env₂ _ tx h2]

/-- C10: `process_transaction` adds the hash to the processed set before
testing whether the sender is watched; a transaction from an unwatched
wallet is therefore marked processed while emitting nothing, and
reprocessing it later emits nothing either — even after subscriptions for
that sender have been added by intervening operations. -/
theorem processed_marked_before_watch_check
    (env₀ env₁ env₂ : CopyEnv) (s : CopyState) (tx : Tx) (ops : List CopyOp)
    (hsender : dictLookup s.monitored_wallets tx.sender = none) :
    tx.hash ∈ (processTransaction env₀ s tx).1.processed_transactions
    ∧ (processTransaction env₀ s tx).2 = []
    ∧ (processTransaction env₂
        (applyOps env₁ (processTransaction env₀ s tx).1 ops) tx).2 = [] := by
  refine ⟨mem_processed_processTransaction env₀ s tx, ?_, ?_⟩
  · by_cases h : tx.hash ∈ s.processed_transactions <;>
      simp [processTransaction, h, hsender]
  · have h2 := processed_applyOps_mono env₁ (processTransaction env₀ s tx).1 ops
      (mem_processed_processTransaction env₀ s tx)
    rw [processTransaction_of_mem env₂ _ tx h2]

/-- Witness for C10: the transaction `0xabc` from the unwatched wallet `W`
is processed (no intent emitted), then a copy-trade subscription for `W` is
created; reprocessing `0xabc` still emits nothing. -/
theorem processed_marked_before_watch_check_witness :
    (processTransaction ⟨fun _ => true, fun _ => true, fun _ => true, fun _ => true⟩
        ⟨[], [], [], 0⟩ ⟨"0xabc", "W", "R", 1⟩).2 = []
    ∧ (processTransaction ⟨fun _ => true, fun _ => true, fun _ => true, fun _ => true⟩
        (applyOps ⟨fun _ => true, fun _ => true, fun _ => true, fun _ => true⟩
          (processTransaction ⟨fun _ => true, fun _ => true, fun _ => true, fun _ => true⟩
            ⟨[], [], [], 0⟩ ⟨"0xabc", "W", "R", 1⟩).1
          [.setup "u" "W" 5 (1/10) true]) ⟨"0xabc", "W", "R", 1⟩).2 = [] := by
  have h := processed_marked_before_watch_check
    ⟨fun _ => true, fun _ => true, fun _ => true, fun _ => true⟩
    ⟨fun _ => true, fun _ => true, fun _ => true, fun _ => true⟩
    ⟨fun _ => true, fun _ => true, fun _ => true, fun _ => true⟩
    ⟨[], [], [], 0⟩ ⟨"0xabc", "W", "R", 1⟩ [.setup "u" "W" 5 (1/10) true] (by decide)
  exact ⟨h.2.1, h.2.2⟩

/-! ## C9: unregister on a missing subscription -/

/-- Counterexample for C9: the claim says a missing subscription makes
`unregister` return boolean false "without raising or reporting an error";
in the code `remove_price_alert` returns a dictionary whose `error` field
is set ("Alert not found"), i.e. it does report an error (and returns no
boolean at all). -/
theorem remove_missing_alert_reports_error_cx :
    (removePriceAlert ⟨[], []⟩ "u" "T").2.errorField = some "Alert not found" := by
  decide

/-- C9 (amended): when no subscription exists for the pair,
`remove_price_alert` does not raise and leaves the state unchanged, but it
returns the "Alert not found" error result rather than an error-free
boolean false; when a subscription exists it returns the success result. -/
theorem remove_missing_alert_amended (s : AlertState) (telegram_id tok : String) :
    ((∀ a ∈ alertsFor s tok, a.telegram_id ≠ telegram_id) →
      (removePriceAlert s telegram_id tok).2.errorField = some "Alert not found"
      ∧ (removePriceAlert s telegram_id tok).1 = s)
    ∧ ((∃ a ∈ alertsFor s tok, a.telegram_id = telegram_id) →
      (removePriceAlert s telegram_id tok).2 = .success) := by
  constructor
  · intro hmiss
    cases h1 : dictLookup s.price_alerts tok with
    | none => simp [removePriceAlert, h1, RemoveAlertResult.errorField]
    | some alerts =>
      have hfind : alerts.findIdx? (fun a => a.telegram_id = telegram_id) = none := by
        rw [List.findIdx?_eq_none_iff]
        intro a ha
        simpa using hmiss a (by simpa [alertsFor, h1] using ha)
      simp [removePriceAlert, h1, hfind, RemoveAlertResult.errorField]
  · rintro ⟨a, ha, haid⟩
    have h1 : ∃ alerts, dictLookup s.price_alerts tok = some alerts := by
      cases h : dictLookup s.price_alerts tok with
      | none => simp [alertsFor, h] at ha
      | some alerts => exact ⟨alerts, rfl⟩
    obtain ⟨alerts, h1⟩ := h1
    have hmem : a ∈ alerts := by simpa [alertsFor, h1] using ha
    have hfind : ∃ i, alerts.findIdx? (fun a => a.telegram_id = telegram_id) = some i := by
      rcases h : alerts.findIdx? (fun a => a.telegram_id = telegram_id) with _ | i
      · rw [List.findIdx?_eq_none_iff] at h
        have := h a hmem
        simp [haid] at this
      · exact ⟨i, h⟩
    obtain ⟨i, hfind⟩ := hfind
    by_cases hemp : (alerts.eraseIdx i).isEmpty <;>
      simp [removePriceAlert, h1, hfind, hemp]

/-- Witness for C9 (amended): removing with no alerts registered reports
"Alert not found" and changes nothing; removing an existing alert
succeeds. -/
theorem remove_missing_alert_amended_witness :
    ((removePriceAlert ⟨[], []⟩ "u" "T").2.errorField = some "Alert not found"
      ∧ (removePriceAlert ⟨[], []⟩ "u" "T").1 = ⟨[], []⟩)
    ∧ (removePriceAlert ⟨[("T", [⟨"u", some 2, none⟩])], []⟩ "u" "T").2 = .success := by
  refine ⟨(remove_missing_alert_amended ⟨[], []⟩ "u" "T").1 (by decide), ?_⟩
  exact (remove_missing_alert_amended ⟨[("T", [⟨"u", some 2, none⟩])], []⟩ "u" "T").2
    ⟨⟨"u", some 2, none⟩, by decide, by decide⟩

/-! ## C6: unregistering the last subscription and the cached price record -/

/-- Counterexample for C6: removing the only subscription for token `T`
succeeds and deletes the token's alert-list entry, but the cached
last-known-price record in `token_data` is NOT removed —
`remove_price_alert` never touches `token_data`. -/
theorem unregister_last_keeps_cached_record_cx :
    (removePriceAlert ⟨[("T", [⟨"u", some 2, none⟩])],
        [("T", { price_eth := some 5 })]⟩ "u" "T").2 = .success
    ∧ dictLookup (removePriceAlert ⟨[("T", [⟨"u", some 2, none⟩])],
        [("T", { price_eth := some 5 })]⟩ "u" "T").1.price_alerts "T" = none
    ∧ dictLookup (removePriceAlert ⟨[("T", [⟨"u", some 2, none⟩])],
        [("T", { price_eth := some 5 })]⟩ "u" "T").1.token_data "T"
      = some { price_eth := some 5 } := by
  decide

/-- C6 (amended): `remove_price_alert` removes the subscription entry (and
the token's alert-list key when it empties) but leaves `token_data`
entirely unchanged, so a subsequent re-registration reuses the stale
baseline instead of observing a fresh one: with a cached price of 5 left
behind, re-registering a high threshold of 7 and polling at price 8 fires a
stale crossing computed from the pre-unregister record. -/
theorem unregister_leaves_price_record (s : AlertState) (telegram_id tok : String) :
    (removePriceAlert s telegram_id tok).1.token_data = s.token_data
    ∧ (let env : AlertEnv :=
        ⟨fun _ => some (8, 0), fun _ => some (10, 1000), fun _ => true, fun _ _ => true⟩
       let s₀ : AlertState := ⟨[("T", [⟨"u", some 2, none⟩])], [("T", { price_eth := some 5 })]⟩
       let s₁ := (removePriceAlert s₀ "u" "T").1
       let s₂ := (addPriceAlert env s₁ "u" "T" (some 7) none none).1
       dictLookup s₂.token_data "T" = some { price_eth := some 5 }
       ∧ (checkPriceAlerts env s₂).2 = [⟨.high, "u", "T", 7, 8⟩]) := by
  constructor
  · cases h1 : dictLookup s.price_alerts tok with
    | none => simp [removePriceAlert, h1]
    | some alerts =>
      cases h2 : alerts.findIdx? (fun a => a.telegram_id = telegram_id) with
      | none => simp [removePriceAlert, h1, h2]
      | some i =>
        by_cases h3 : (alerts.eraseIdx i).isEmpty <;>
          simp [removePriceAlert, h1, h2, h3]
  · refine ⟨by decide, ?_⟩
    norm_num [checkPriceAlerts, runPriceChecks, alertEventsFor, addPriceAlert,
      removePriceAlert, dictLookup, dictSet, dictErase, dictUpdate, dictContains,
      alertsFor]

/-! ## C7: validation performed by the copy-trade subscribe operation -/

/-- Counterexample for C7: `setup_copy_trading` accepts a slippage guard of
100 (outside [0.1, 50]) and a max spend of 0 (not > 0) — the claim says
these must fail with InvalidSlippage / InvalidAmount with no subscription
created, but the call succeeds and creates the subscription; only the
address is validated. -/
theorem subscribe_no_range_check_cx :
    (setupCopyTrading ⟨fun _ => true, fun _ => true, fun _ => true, fun _ => true⟩
        ⟨[], [], [], 0⟩ "u" "0xW" 100 0 true).2 = .ok 0
    ∧ (setupCopyTrading ⟨fun _ => true, fun _ => true, fun _ => true, fun _ => true⟩
        ⟨[], [], [], 0⟩ "u" "0xW" 100 0 true).1.monitored_wallets
      = [("0xW", [⟨"u", 0, 100, 0, true, none⟩])]
    ∧ (setupCopyTrading ⟨fun _ => true, fun _ => true, fun _ => true, fun _ => true⟩
        ⟨[], [], [], 0⟩ "u" "0xW" 100 0 true).1.db
      = [⟨0, "u", "0xW", 100, true, true, 0⟩] := by
  decide

/-- C7 (amended): `setup_copy_trading` rejects a syntactically invalid
target address (no subscription created) and an absent user wallet, but it
performs no range validation at all on the slippage guard or the max spend:
for every slippage and spend value — in range or not — a valid address and
wallet yield a successful subscription carrying those values verbatim.
The [0.1, 50] slippage bound and the positive-spend bound are enforced only
by the conversational input handlers (`slippageInputAccepted`,
`maxEthInputAccepted`), outside this operation. -/
theorem subscribe_validates_only_address
    (env : CopyEnv) (s : CopyState) (telegram_id target : String)
    (slippage max_eth : ℚ) (sandbox : Bool) :
    (env.isAddress target = false →
      setupCopyTrading env s telegram_id target slippage max_eth sandbox
        = (s, .invalidAddress))
    ∧ (env.isAddress target = true → env.userHasWallet telegram_id = true →
      (setupCopyTrading env s telegram_id target slippage max_eth sandbox).2
        = .ok s.nextConfigId
      ∧ (∃ cfgs, dictLookup (setupCopyTrading env s telegram_id target slippage
            max_eth sandbox).1.monitored_wallets target = some cfgs
          ∧ (⟨telegram_id, s.nextConfigId, slippage, max_eth, sandbox, none⟩ : WalletConfig) ∈ cfgs)
      ∧ (⟨s.nextConfigId, telegram_id, target, slippage, true, sandbox, max_eth⟩ : DBConfig)
          ∈ (setupCopyTrading env s telegram_id target slippage max_eth sandbox).1.db)
    ∧ (slippageInputAccepted 100 = false ∧ maxEthInputAccepted 0 = false) := by
  refine ⟨fun h => by simp [setupCopyTrading, h], fun h₁ h₂ => ?_,
    by norm_num [slippageInputAccepted], by norm_num [maxEthInputAccepted]⟩
  refine ⟨by simp [setupCopyTrading, h₁, h₂], ?_, ?_⟩
  · refine ⟨_, by simp only [setupCopyTrading, h₁, h₂, Bool.not_true, if_false,
      ite_false, Bool.false_eq_true, not_false_eq_true, if_true]; exact dictLookup_dictSet_self _ _ _, ?_⟩
    exact List.mem_append_right _ (List.mem_singleton.mpr rfl)
  · simp [setupCopyTrading, h₁, h₂]

/-- Witness for C7 (amended): an invalid address is rejected; with a valid
address, the out-of-range slippage 100 and spend 0 are accepted and the
subscription is created. -/
theorem subscribe_validates_only_address_witness :
    setupCopyTrading ⟨fun _ => false, fun _ => true, fun _ => true, fun _ => true⟩
        ⟨[], [], [], 0⟩ "u" "nope" 5 1 true = (⟨[], [], [], 0⟩, .invalidAddress)
    ∧ (setupCopyTrading ⟨fun _ => true, fun _ => true, fun _ => true, fun _ => true⟩
        ⟨[], [], [], 0⟩ "u" "0xW" 100 0 true).2 = .ok 0 := by
  refine ⟨(subscribe_validates_only_address ⟨fun _ => false, fun _ => true, fun _ => true,
      fun _ => true⟩ ⟨[], [], [], 0⟩ "u" "nope" 5 1 true).1 rfl, ?_⟩
  exact ((subscribe_validates_only_address ⟨fun _ => true, fun _ => true, fun _ => true,
      fun _ => true⟩ ⟨[], [], [], 0⟩ "u" "0xW" 100 0 true).2.1 rfl rfl).1

/-! ## C4: a failed price fetch is isolated to its token -/

theorem runPriceChecks_skip_failed (env : AlertEnv) (t : String)
    (h : env.price t = none) :
    ∀ (l : List (String × List Alert)) (td : List (String × TokenRecord)),
    runPriceChecks env l td
      = runPriceChecks env (l.filter (fun p => p.1 ≠ t)) td := by
  intro l
  induction l with
  | nil => intro td; rfl
  | cons p rest ih =>
    intro td
    obtain ⟨tok, al⟩ := p
    by_cases htok : tok = t
    · subst htok
      simp [runPriceChecks, h, ih td]
    · cases hp : env.price tok with
      | none => simp [runPriceChecks, hp, htok, ih td]
      | some pu =>
        obtain ⟨cur, usd⟩ := pu
        simp only [ne_eq, decide_not] at ih
        simp [runPriceChecks, hp, htok]
        rw [ih]
        exact ⟨rfl, rfl⟩

theorem runPriceChecks_lookup_failed (env : AlertEnv) (t : String)
    (h : env.price t = none) :
    ∀ (l : List (String × List Alert)) (td : List (String × TokenRecord)),
    dictLookup (runPriceChecks env l td).1 t = dictLookup td t := by
  intro l
  induction l with
  | nil => intro td; rfl
  | cons p rest ih =>
    intro td
    obtain ⟨tok, al⟩ := p
    cases hp : env.price tok with
    | none => simp [runPriceChecks, hp, ih td]
    | some pu =>
      obtain ⟨cur, usd⟩ := pu
      have htok : tok ≠ t := by
        intro e
        rw [e, h] at hp
        cases hp
      simp [runPriceChecks, hp]
      rw [ih, dictLookup_dictUpdate_ne _ _ _ _ _ htok]

/-- C4: when `get_token_price` fails for a token, `check_price_alerts`
skips it for the cycle — its `token_data` record is left exactly as it was
— and the cycle behaves as if that token were absent: the events and the
final price records are those obtained from the remaining tokens alone. -/
theorem fetch_failure_skips_token (env : AlertEnv) (s : AlertState) (t : String)
    (h : env.price t = none) :
    dictLookup (checkPriceAlerts env s).1.token_data t = dictLookup s.token_data t
    ∧ (checkPriceAlerts env s).2
        = (checkPriceAlerts env ⟨s.price_alerts.filter (fun p => p.1 ≠ t), s.token_data⟩).2
    ∧ (checkPriceAlerts env s).1.token_data
        = (checkPriceAlerts env ⟨s.price_alerts.filter (fun p => p.1 ≠ t),
            s.token_data⟩).1.token_data := by
  refine ⟨?_, ?_, ?_⟩
  · simp only [checkPriceAlerts]
    exact runPriceChecks_lookup_failed env t h s.price_alerts s.token_data
  · simp only [checkPriceAlerts]
    rw [runPriceChecks_skip_failed env t h]
  · simp only [checkPriceAlerts]
    rw [runPriceChecks_skip_failed env t h]

/-- Witness for C4: token `A`'s fetch fails while token `B`'s succeeds; `A`'s
record is untouched and the cycle equals the cycle without `A`. -/
theorem fetch_failure_skips_token_witness :
    dictLookup (checkPriceAlerts
        ⟨fun tok => if tok = "A" then none else some (3, 0), fun _ => none,
          fun _ => true, fun _ _ => true⟩
        ⟨[("A", [⟨"u", some 2, none⟩]), ("B", [⟨"v", some 2, none⟩])],
          [("A", { price_eth := some 1 }), ("B", { price_eth := some 1 })]⟩).1.token_data "A"
      = some { price_eth := some 1 }
    ∧ (checkPriceAlerts
        ⟨fun tok => if tok = "A" then none else some (3, 0), fun _ => none,
          fun _ => true, fun _ _ => true⟩
        ⟨[("A", [⟨"u", some 2, none⟩]), ("B", [⟨"v", some 2, none⟩])],
          [("A", { price_eth := some 1 }), ("B", { price_eth := some 1 })]⟩).2
      = (checkPriceAlerts
        ⟨fun tok => if tok = "A" then none else some (3, 0), fun _ => none,
          fun _ => true, fun _ _ => true⟩
        ⟨[("A", [⟨"u", some 2, none⟩]), ("B", [⟨"v", some 2, none⟩])].filter
            (fun p => p.1 ≠ "A"),
          [("A", { price_eth := some 1 }), ("B", { price_eth := some 1 })]⟩).2 := by
  have h := fetch_failure_skips_token
    ⟨fun tok => if tok = "A" then none else some (3, 0), fun _ => none,
      fun _ => true, fun _ _ => true⟩
    ⟨[("A", [⟨"u", some 2, none⟩]), ("B", [⟨"v", some 2, none⟩])],
      [("A", { price_eth := some 1 }), ("B", { price_eth := some 1 })]⟩ "A" (by decide)
  exact ⟨by rw [h.1]; decide, h.2.1⟩

/-! ## C1: edge-triggered threshold crossings -/

/-- C1: on a successful poll, a subscriber with positive high threshold `T`
gets a `price_high` event exactly when the previous price is strictly below
`T` and the current price is at or above it, symmetrically for a low
threshold, and the price sequence `[T-1, T, T+1]` yields exactly one
`price_high` event, at the second poll, and none at the first or third. -/
theorem price_crossing_edge_triggered
    (tok telegram_id : String) (T : ℚ) (hi lo : Option ℚ) (prev cur : ℚ)
    (hT : 0 < T) :
    (countHighEvents telegram_id T
        (alertEventsFor tok prev cur ⟨telegram_id, some T, lo⟩)
      = if prev < T ∧ T ≤ cur then 1 else 0)
    ∧ (countLowEvents telegram_id T
        (alertEventsFor tok prev cur ⟨telegram_id, hi, some T⟩)
      = if T < prev ∧ cur ≤ T then 1 else 0)
    ∧ (let a : Alert := ⟨telegram_id, some T, none⟩
       let env : ℚ → AlertEnv :=
         fun p => ⟨fun _ => some (p, 0), fun _ => none, fun _ => true, fun _ _ => true⟩
       let p1 := checkPriceAlerts (env (T - 1)) ⟨[(tok, [a])], []⟩
       let p2 := checkPriceAlerts (env T) p1.1
       let p3 := checkPriceAlerts (env (T + 1)) p2.1
       p1.2 = [] ∧ p2.2 = [⟨.high, telegram_id, tok, T, T⟩] ∧ p3.2 = []) := by
  have hne : T ≠ 0 := ne_of_gt hT
  refine ⟨?_, ?_, ?_⟩
  · cases lo with
    | none =>
      by_cases hc : prev < T ∧ T ≤ cur <;>
        simp [countHighEvents, alertEventsFor, hne, hc, ge_iff_le]
    | some t' =>
      by_cases hc : prev < T ∧ T ≤ cur <;>
        by_cases hc' : t' ≠ 0 ∧ prev > t' ∧ cur ≤ t' <;>
          simp [countHighEvents, alertEventsFor, hne, hc, hc', ge_iff_le]
  · cases hi with
    | none =>
      by_cases hc : T < prev ∧ cur ≤ T <;>
        simp [countLowEvents, alertEventsFor, hne, hc, gt_iff_lt]
    | some t' =>
      by_cases hc : T < prev ∧ cur ≤ T <;>
        by_cases hc' : t' ≠ 0 ∧ prev < t' ∧ cur ≥ t' <;>
          simp [countLowEvents, alertEventsFor, hne, hc, hc', gt_iff_lt]
  · have c1 : ¬ (T ≠ 0 ∧ T - 1 < T ∧ T - 1 ≥ T) := by
      rintro ⟨-, -, h⟩
      linarith
    have c2 : T ≠ 0 ∧ T - 1 < T ∧ T ≥ T := ⟨hne, by linarith, le_refl T⟩
    have c3 : ¬ (T ≠ 0 ∧ T < T ∧ T + 1 ≥ T) := by
      rintro ⟨-, h, -⟩
      exact lt_irrefl T h
    simp [checkPriceAlerts, runPriceChecks, alertEventsFor, dictLookup, dictUpdate,
      c1, c2, c3]

/-! ## C3: liquidity-change fan-out -/

theorem countP_decide_dedup (l : List String) (u : String) :
    l.dedup.countP (fun x => decide (x = u)) = if u ∈ l then 1 else 0 := by
  induction l with
  | nil => simp
  | cons a l ih =>
    by_cases ha : a ∈ l
    · rw [List.dedup_cons_of_mem ha, ih]
      by_cases hu : u = a
      · subst hu
        simp [ha]
      · simp [List.mem_cons, hu]
    · rw [List.dedup_cons_of_not_mem ha, List.countP_cons, ih]
      by_cases hu : u = a
      · subst hu
        simp [ha]
      · have : ¬ (a = u) := fun e => hu e.symm
        simp [List.mem_cons, hu, this]

theorem checkLiquidity_single (env : AlertEnv) (as : List (String × List Alert))
    (tok : String) (r : TokenRecord) (prev cur tokLiq : ℚ)
    (hr : r.eth_liquidity = some prev) (hprev : 0 < prev)
    (henv : env.liquidity tok = some (cur, tokLiq)) :
    checkLiquidityChanges env ⟨as, [(tok, r)]⟩
      = (⟨as, [(tok, { r with eth_liquidity := some cur, token_liquidity := some tokLiq })]⟩,
         if pyAbs ((cur / prev - 1) * 100) ≥ 20 then
           (liquidityUsers as tok).map
             (fun u => ⟨u, tok, prev, cur, (cur / prev - 1) * 100⟩)
         else []) := by
  simp [checkLiquidityChanges, runLiquidityChecks, henv, hr, hprev]

/-- C3: on a successful liquidity poll of a tracked token, a
`liquidity_change` event goes to every current subscriber exactly when the
absolute percentage change versus the prior record is at least 20 (exactly
+20%, e.g. 10 → 12 ETH, triggers; +19.9% does not), one event per
subscriber; the record is updated on every successful poll, so the check is
not edge-triggered: a second qualifying swing fires again. -/
theorem liquidity_change_fanout (env : AlertEnv) (as : List (String × List Alert))
    (tok : String) (r : TokenRecord) (prev cur tokLiq : ℚ)
    (hr : r.eth_liquidity = some prev) (hprev : 0 < prev)
    (henv : env.liquidity tok = some (cur, tokLiq)) :
    ((checkLiquidityChanges env ⟨as, [(tok, r)]⟩).2
      = if pyAbs ((cur / prev - 1) * 100) ≥ 20 then
          (liquidityUsers as tok).map
            (fun u => ⟨u, tok, prev, cur, (cur / prev - 1) * 100⟩)
        else [])
    ∧ (∀ u : String,
        ((checkLiquidityChanges env ⟨as, [(tok, r)]⟩).2.countP
            (fun e => decide (e.telegram_id = u)))
          = if pyAbs ((cur / prev - 1) * 100) ≥ 20
              ∧ u ∈ ((dictLookup as tok).getD []).map Alert.telegram_id
            then 1 else 0)
    ∧ ((checkLiquidityChanges env ⟨as, [(tok, r)]⟩).1
      = ⟨as, [(tok, { r with eth_liquidity := some cur, token_liquidity := some tokLiq })]⟩)
    ∧ (∀ (env' : AlertEnv) (cur₂ tokLiq₂ : ℚ),
        env'.liquidity tok = some (cur₂, tokLiq₂) → 0 < cur →
        (checkLiquidityChanges env'
            (checkLiquidityChanges env ⟨as, [(tok, r)]⟩).1).2
          = if pyAbs ((cur₂ / cur - 1) * 100) ≥ 20 then
              (liquidityUsers as tok).map
                (fun u => ⟨u, tok, cur, cur₂, (cur₂ / cur - 1) * 100⟩)
            else [])
    ∧ ((checkLiquidityChanges
          ⟨fun _ => none, fun _ => some (12, 0), fun _ => true, fun _ _ => true⟩
          ⟨[("T", [⟨"u", some 2, none⟩])], [("T", { eth_liquidity := some 10 })]⟩).2
        = [⟨"u", "T", 10, 12, 20⟩]
      ∧ (checkLiquidityChanges
          ⟨fun _ => none, fun _ => some (1199/100, 0), fun _ => true, fun _ _ => true⟩
          ⟨[("T", [⟨"u", some 2, none⟩])], [("T", { eth_liquidity := some 10 })]⟩).2
        = []) := by
  have key := checkLiquidity_single env as tok r prev cur tokLiq hr hprev henv
  refine ⟨by rw [key], ?_, by rw [key], ?_, ?_, ?_⟩
  · intro u
    rw [key]
    by_cases hc : pyAbs ((cur / prev - 1) * 100) ≥ 20
    · simp only [hc, if_true, true_and]
      rw [List.countP_map]
      have hcongr : List.countP
          ((fun e : LiquidityAlertEvent => decide (e.telegram_id = u)) ∘
            (fun v => (⟨v, tok, prev, cur, (cur / prev - 1) * 100⟩ : LiquidityAlertEvent)))
          (liquidityUsers as tok)
          = List.countP (fun x => decide (x = u)) (liquidityUsers as tok) :=
        List.countP_congr (fun x _ => by simp [Function.comp])
      rw [hcongr, liquidityUsers, countP_decide_dedup]
    · simp [hc]
  · intro env' cur₂ tokLiq₂ henv' hcur
    rw [key]
    have key₂ := checkLiquidity_single env' as tok
      { r with eth_liquidity := some cur, token_liquidity := some tokLiq }
      cur cur₂ tokLiq₂ rfl hcur henv'
    rw [key₂]
  · rw [checkLiquidity_single _ _ "T" _ 10 12 0 rfl (by decide) rfl]
    norm_num [pyAbs, liquidityUsers, dictLookup]
  · rw [checkLiquidity_single _ _ "T" _ 10 (1199/100) 0 rfl (by decide) rfl]
    norm_num [pyAbs]

/-- Witness for C3: prior liquidity 10 ETH, current 12 ETH (+20%), one
subscriber. -/
theorem liquidity_change_fanout_witness :
    (checkLiquidityChanges
        ⟨fun _ => none, fun _ => some (12, 0), fun _ => true, fun _ _ => true⟩
        ⟨[("T", [⟨"u", some 2, none⟩])], [("T", { eth_liquidity := some 10 })]⟩).2
      = if pyAbs (((12 : ℚ) / 10 - 1) * 100) ≥ 20 then
          (liquidityUsers [("T", [⟨"u", some 2, none⟩])] "T").map
            (fun u => ⟨u, "T", 10, 12, ((12 : ℚ) / 10 - 1) * 100⟩)
        else [] :=
  (liquidity_change_fanout
    ⟨fun _ => none, fun _ => some (12, 0), fun _ => true, fun _ _ => true⟩
    [("T", [⟨"u", some 2, none⟩])] "T" { eth_liquidity := some 10 }
    10 12 0 rfl (by decide) rfl).1

/-- Witness for C1 at `T = 2`, price moving from 1 to 2. -/
theorem price_crossing_edge_triggered_witness :
    (0 : ℚ) < 2
    ∧ countHighEvents "u" 2 (alertEventsFor "T1" 1 2 ⟨"u", some 2, none⟩)
      = if (1 : ℚ) < 2 ∧ (2 : ℚ) ≤ 2 then 1 else 0 :=
  ⟨by decide, (price_crossing_edge_triggered "T1" "u" 2 none none 1 2 (by decide)).1⟩

/-! ## C5: re-registration overwrites, helper lemmas -/

theorem dictLookup_append_none {α : Type} (l l₂ : List (String × α)) (k : String)
    (h : dictLookup l k = none) : dictLookup (l ++ l₂) k = dictLookup l₂ k := by
  induction l with
  | nil => rfl
  | cons p rest ih =>
    obtain ⟨k', v⟩ := p
    by_cases hk : k' = k
    · simp [dictLookup, hk] at h
    · rw [List.cons_append]
      simp only [dictLookup, hk, if_false] at h
      simp [dictLookup, hk]
      exact ih h

theorem dictLookup_ensure (l : List (String × List Alert)) (k : String) :
    dictLookup (if dictContains l k then l else l ++ [(k, [])]) k
      = some ((dictLookup l k).getD []) := by
  cases h : dictLookup l k with
  | none =>
    simp only [dictContains, h, Option.isSome_none, if_false, Bool.false_eq_true]
    rw [dictLookup_append_none l _ k h]
    simp [dictLookup]
  | some v => simp [dictContains, h]

theorem dictSet_keys {α : Type} (l : List (String × α)) (k : String) (v : α)
    (h : (dictLookup l k).isSome) :
    (dictSet l k v).map Prod.fst = l.map Prod.fst := by
  induction l with
  | nil => simp [dictLookup] at h
  | cons p rest ih =>
    obtain ⟨k', v'⟩ := p
    by_cases hk : k' = k
    · simp [dictSet, hk]
    · simp only [dictLookup, hk, if_false] at h
      simp [dictSet, hk, ih h]

theorem dictLookup_none_of_not_key {α : Type} (l : List (String × α)) (k : String)
    (h : k ∉ l.map Prod.fst) : dictLookup l k = none := by
  induction l with
  | nil => rfl
  | cons p rest ih =>
    obtain ⟨k', v⟩ := p
    simp only [List.map_cons, List.mem_cons] at h
    push_neg at h
    have hk : ¬ k' = k := fun e => h.1 e.symm
    simp [dictLookup, hk, ih h.2]

theorem key_mem_of_dictLookup_isSome {α : Type} (l : List (String × α)) (k : String)
    (h : (dictLookup l k).isSome) : k ∈ l.map Prod.fst := by
  by_contra hmem
  rw [dictLookup_none_of_not_key l k hmem] at h
  simp at h

theorem findIdx_append_singleton {α : Type} (p : α → Bool) (l : List α) (b : α)
    (h : ∀ a ∈ l, ¬ p a) (hb : p b = true) :
    ∀ i, List.findIdx? p (l ++ [b]) i = some (i + l.length) := by
  induction l with
  | nil =>
    intro i
    rw [List.nil_append, List.findIdx?_cons, if_pos hb]
    simp
  | cons a rest ih =>
    intro i
    have ha : ¬ (p a = true) := by simpa using h a (List.mem_cons_self a rest)
    rw [List.cons_append, List.findIdx?_cons, if_neg ha,
      ih (fun x hx => h x (List.mem_cons_of_mem a hx)) (i + 1)]
    simp only [List.length_cons]
    congr 1
    omega

theorem findIdx_append_singleton_zero {α : Type} (p : α → Bool) (l : List α) (b : α)
    (h : ∀ a ∈ l, ¬ p a) (hb : p b = true) :
    (l ++ [b]).findIdx? p = some l.length := by
  rw [show (l ++ [b]).findIdx? p = List.findIdx? p (l ++ [b]) 0 from rfl,
    findIdx_append_singleton p l b h hb 0]
  simp

theorem set_append_singleton {α : Type} (l : List α) (b c : α) :
    (l ++ [b]).set l.length c = l ++ [c] := by
  induction l with
  | nil => rfl
  | cons a rest ih => simp [List.set, ih]

theorem countP_flatMap_le {α β : Type} (f : α → List β) (p : β → Bool) (q : α → Bool)
    (al : List α) (h : ∀ a, (f a).countP p ≤ if q a then 1 else 0) :
    (al.flatMap f).countP p ≤ al.countP q := by
  induction al with
  | nil => simp
  | cons a rest ih =>
    rw [List.flatMap_cons, List.countP_append, List.countP_cons]
    have h1 := h a
    by_cases hq : q a = true
    · rw [if_pos hq] at h1 ⊢
      omega
    · rw [if_neg hq] at h1 ⊢
      omega

theorem mem_alertEventsFor (tok' : String) (prev cur : ℚ) (a : Alert)
    (e : PriceAlertEvent) (he : e ∈ alertEventsFor tok' prev cur a) :
    e.telegram_id = a.telegram_id ∧ e.token_address = tok' := by
  obtain ⟨tid', hi, lo⟩ := a
  unfold alertEventsFor at he
  rcases List.mem_append.mp he with h | h
  · dsimp only at h
    cases hi with
    | none => cases h
    | some t =>
      dsimp only at h
      by_cases hc : t ≠ 0 ∧ prev < t ∧ cur ≥ t
      · rw [if_pos hc] at h
        simp only [List.mem_singleton] at h
        subst h
        exact ⟨rfl, rfl⟩
      · rw [if_neg hc] at h
        cases h
  · dsimp only at h
    cases lo with
    | none => cases h
    | some t =>
      dsimp only at h
      by_cases hc : t ≠ 0 ∧ prev > t ∧ cur ≤ t
      · rw [if_pos hc] at h
        simp only [List.mem_singleton] at h
        subst h
        exact ⟨rfl, rfl⟩
      · rw [if_neg hc] at h
        cases h

theorem countHigh_alertEventsFor_le (telegram_id tok tok' : String) (prev cur : ℚ)
    (a : Alert) :
    (alertEventsFor tok' prev cur a).countP
        (fun e => decide (e.kind = .high ∧ e.telegram_id = telegram_id
          ∧ e.token_address = tok))
      ≤ if (decide (tok' = tok) && decide (a.telegram_id = telegram_id)) = true
        then 1 else 0 := by
  by_cases hq : (decide (tok' = tok) && decide (a.telegram_id = telegram_id)) = true
  · rw [if_pos hq]
    obtain ⟨tid', hi, lo⟩ := a
    cases hi <;> cases lo <;> simp only [alertEventsFor] <;> (try split_ifs) <;>
      simp [List.countP_cons, List.countP_append] <;> (try split_ifs) <;> simp
  · rw [if_neg hq]
    rw [Nat.le_zero, List.countP_eq_zero]
    intro e he
    have hmem := mem_alertEventsFor tok' prev cur a e he
    simp only [Bool.and_eq_true, decide_eq_true_eq, not_and] at hq
    simp only [decide_eq_true_eq, not_and]
    intro _ h2 h3
    exact hq (hmem.2.symm.trans h3) (hmem.1.symm.trans h2)

theorem tidAlertCount_cons (tok telegram_id tok' : String) (al : List Alert)
    (rest : List (String × List Alert)) :
    tidAlertCount tok telegram_id ((tok', al) :: rest)
      = (if tok' = tok
         then al.countP (fun a => decide (a.telegram_id = telegram_id)) else 0)
        + tidAlertCount tok telegram_id rest := by
  unfold tidAlertCount
  by_cases h : tok' = tok
  · simp [h, List.countP_append]
  · simp [h]

theorem countHigh_runPriceChecks_le (env : AlertEnv) (telegram_id tok : String) :
    ∀ (l : List (String × List Alert)) (td : List (String × TokenRecord)),
    countHighForToken telegram_id tok (runPriceChecks env l td).2
      ≤ tidAlertCount tok telegram_id l := by
  intro l
  induction l with
  | nil =>
    intro td
    simp [runPriceChecks, countHighForToken, tidAlertCount]
  | cons p rest ih =>
    intro td
    obtain ⟨tok', al⟩ := p
    rw [tidAlertCount_cons]
    cases hp : env.price tok' with
    | none =>
      simp only [runPriceChecks, hp]
      exact le_trans (ih td) (Nat.le_add_left _ _)
    | some pu =>
      obtain ⟨cur, usd⟩ := pu
      simp only [runPriceChecks, hp]
      unfold countHighForToken
      rw [List.countP_append]
      have hflat : (al.flatMap (alertEventsFor tok'
          (((dictLookup td tok').bind TokenRecord.price_eth).getD cur) cur)).countP
            (fun e => decide (e.kind = .high ∧ e.telegram_id = telegram_id
              ∧ e.token_address = tok))
          ≤ al.countP (fun a => decide (tok' = tok) && decide (a.telegram_id = telegram_id)) :=
        countP_flatMap_le _ _ _ al
          (fun a => countHigh_alertEventsFor_le telegram_id tok tok' _ cur a)
      have hq : al.countP (fun a => decide (tok' = tok) && decide (a.telegram_id = telegram_id))
          ≤ if tok' = tok
            then al.countP (fun a => decide (a.telegram_id = telegram_id)) else 0 := by
        by_cases h : tok' = tok
        · rw [if_pos h]
          exact le_of_eq (List.countP_congr (fun x _ => by simp [h]))
        · rw [if_neg h]
          have hz : al.countP (fun a => decide (tok' = tok)
              && decide (a.telegram_id = telegram_id)) = 0 := by
            rw [List.countP_eq_zero]
            intro x hx
            simp [h]
          omega
      have hrest := ih (dictUpdate {}
        (fun r => { r with price_eth := some cur, price_usd := some usd }) td tok')
      exact Nat.add_le_add (le_trans hflat hq) hrest

theorem filter_key_of_nodup {α : Type} (l : List (String × α)) (tok : String) (v : α)
    (hnd : (l.map Prod.fst).Nodup) (h : dictLookup l tok = some v) :
    l.filter (fun p => decide (p.1 = tok)) = [(tok, v)] := by
  induction l with
  | nil => simp [dictLookup] at h
  | cons p rest ih =>
    obtain ⟨k, w⟩ := p
    simp only [List.map_cons, List.nodup_cons] at hnd
    by_cases hk : k = tok
    · subst hk
      have h' : w = v := by simpa [dictLookup] using h
      subst h'
      rw [List.filter_cons_of_pos (by simp)]
      have hnil : rest.filter (fun p => decide (p.1 = k)) = [] := by
        rw [List.filter_eq_nil_iff]
        intro x hx
        simp only [decide_eq_true_eq]
        intro he
        exact hnd.1 (he ▸ List.mem_map_of_mem Prod.fst hx)
      rw [hnil]
    · simp only [dictLookup, hk, if_false] at h
      rw [List.filter_cons_of_neg (by simp [hk])]
      exact ih hnd.2 h

theorem addPriceAlert_new (env : AlertEnv) (s : AlertState) (telegram_id tok : String)
    (hi lo : Option ℚ)
    (hu : env.userExists telegram_id = true)
    (hnone : ∀ a ∈ alertsFor s tok, a.telegram_id ≠ telegram_id) :
    (addPriceAlert env s telegram_id tok hi lo none).1.price_alerts
      = dictSet (if dictContains s.price_alerts tok then s.price_alerts
                 else s.price_alerts ++ [(tok, [])]) tok
          (alertsFor s tok ++ [⟨telegram_id, hi, lo⟩]) := by
  have hens := dictLookup_ensure s.price_alerts tok
  have hfind : (alertsFor s tok).findIdx?
      (fun a => a.telegram_id = telegram_id) = none := by
    rw [List.findIdx?_eq_none_iff]
    intro a ha
    simpa using hnone a ha
  simp only [alertsFor] at hfind
  simp only [addPriceAlert, hu, not_true, if_false, Bool.false_eq_true,
    not_false_eq_true, if_true, hens, Option.getD_some, hfind, alertsFor]
  split
  · rfl
  · split <;> rfl


theorem addPriceAlert_update (env : AlertEnv) (s : AlertState) (telegram_id tok : String)
    (hi lo : Option ℚ) (alerts : List Alert) (i : Nat)
    (hu : env.userExists telegram_id = true)
    (hlook : dictLookup s.price_alerts tok = some alerts)
    (hfind : alerts.findIdx? (fun a => a.telegram_id = telegram_id) = some i) :
    addPriceAlert env s telegram_id tok hi lo none
      = ({ s with
            price_alerts := dictSet s.price_alerts tok (alerts.set i ⟨telegram_id, hi, lo⟩) },
         AddAlertResult.updated) := by
  have hcont : dictContains s.price_alerts tok = true := by
    simp [dictContains, hlook]
  simp only [addPriceAlert, hu, not_true, if_false, Bool.false_eq_true,
    not_false_eq_true, if_true, hcont, hlook, Option.getD_some, hfind]

theorem dictLookup_isSome_of_key_mem {α : Type} (l : List (String × α)) (k : String)
    (h : k ∈ l.map Prod.fst) : (dictLookup l k).isSome := by
  induction l with
  | nil => simp at h
  | cons p rest ih =>
    obtain ⟨k', v⟩ := p
    by_cases hk : k' = k
    · simp [dictLookup, hk]
    · simp only [List.map_cons, List.mem_cons] at h
      rcases h with h | h
      · exact absurd h.symm hk
      · simp only [dictLookup, hk, if_false]
        exact ih h

/-- C5: registering an alert is idempotent on the (subscriber, token) pair:
after registering twice (from a store with no subscription for the pair)
the token's list holds exactly one entry for the subscriber, carrying the
second registration's thresholds (the second call takes the update branch
rather than appending), and a subsequent poll emits at most one
`price_high` event for that subscriber and token. -/
theorem register_overwrites_subscription
    (env₁ env₂ : AlertEnv) (s : AlertState) (telegram_id tok : String)
    (hi₁ lo₁ hi₂ lo₂ : Option ℚ)
    (hu₁ : env₁.userExists telegram_id = true)
    (hu₂ : env₂.userExists telegram_id = true)
    (hnone : ∀ a ∈ alertsFor s tok, a.telegram_id ≠ telegram_id)
    (hnd : (s.price_alerts.map Prod.fst).Nodup) :
    (addPriceAlert env₂ (addPriceAlert env₁ s telegram_id tok hi₁ lo₁ none).1
        telegram_id tok hi₂ lo₂ none).2 = AddAlertResult.updated
    ∧ (alertsFor (addPriceAlert env₂ (addPriceAlert env₁ s telegram_id tok hi₁ lo₁ none).1
          telegram_id tok hi₂ lo₂ none).1 tok).filter
        (fun a => decide (a.telegram_id = telegram_id))
      = [(⟨telegram_id, hi₂, lo₂⟩ : Alert)]
    ∧ (alertsFor (addPriceAlert env₂ (addPriceAlert env₁ s telegram_id tok hi₁ lo₁ none).1
          telegram_id tok hi₂ lo₂ none).1 tok).countP
        (fun a => decide (a.telegram_id = telegram_id)) = 1
    ∧ ∀ env' : AlertEnv,
        countHighForToken telegram_id tok
          (checkPriceAlerts env'
            (addPriceAlert env₂ (addPriceAlert env₁ s telegram_id tok hi₁ lo₁ none).1
              telegram_id tok hi₂ lo₂ none).1).2 ≤ 1 := by
  have hens := dictLookup_ensure s.price_alerts tok
  have hnd₀ : ((if dictContains s.price_alerts tok then s.price_alerts
      else s.price_alerts ++ [(tok, [])]).map Prod.fst).Nodup := by
    by_cases hc : dictContains s.price_alerts tok = true
    · rw [if_pos hc]
      exact hnd
    · rw [if_neg hc, List.map_append, List.nodup_append]
      refine ⟨hnd, by simp, ?_⟩
      intro x hx hxm
      simp only [List.map_cons, List.map_nil, List.mem_singleton] at hxm
      subst hxm
      have hs := dictLookup_isSome_of_key_mem _ _ hx
      simp only [dictContains, Bool.not_eq_true] at hc
      rw [hc] at hs
      exact Bool.noConfusion hs
  have hpa₁ := addPriceAlert_new env₁ s telegram_id tok hi₁ lo₁ hu₁ hnone
  generalize hs₁ : (addPriceAlert env₁ s telegram_id tok hi₁ lo₁ none).1 = s₁ at hpa₁ ⊢
  have hlook₁ : dictLookup s₁.price_alerts tok
      = some (alertsFor s tok ++ [(⟨telegram_id, hi₁, lo₁⟩ : Alert)]) := by
    rw [hpa₁]
    exact dictLookup_dictSet_self _ _ _
  have hnd₁ : (s₁.price_alerts.map Prod.fst).Nodup := by
    rw [hpa₁, dictSet_keys _ _ _ (by rw [hens]; rfl)]
    exact hnd₀
  have hfind₂ : (alertsFor s tok ++ [(⟨telegram_id, hi₁, lo₁⟩ : Alert)]).findIdx?
      (fun a => a.telegram_id = telegram_id) = some (alertsFor s tok).length := by
    apply findIdx_append_singleton_zero
    · intro a ha
      simpa using hnone a ha
    · simp
  have hupd := addPriceAlert_update env₂ s₁ telegram_id tok hi₂ lo₂
    (alertsFor s tok ++ [(⟨telegram_id, hi₁, lo₁⟩ : Alert)]) (alertsFor s tok).length
    hu₂ hlook₁ hfind₂
  rw [set_append_singleton] at hupd
  rw [hupd]
  have hlook₂ : dictLookup (dictSet s₁.price_alerts tok
      (alertsFor s tok ++ [(⟨telegram_id, hi₂, lo₂⟩ : Alert)])) tok
      = some (alertsFor s tok ++ [(⟨telegram_id, hi₂, lo₂⟩ : Alert)]) :=
    dictLookup_dictSet_self _ _ _
  have hfilter : (alertsFor s tok ++ [(⟨telegram_id, hi₂, lo₂⟩ : Alert)]).filter
      (fun a => decide (a.telegram_id = telegram_id)) = [(⟨telegram_id, hi₂, lo₂⟩ : Alert)] := by
    rw [List.filter_append,
      List.filter_eq_nil_iff.mpr (fun a ha => by simpa using hnone a ha)]
    simp
  have hnd₂ : ((dictSet s₁.price_alerts tok
      (alertsFor s tok ++ [(⟨telegram_id, hi₂, lo₂⟩ : Alert)])).map Prod.fst).Nodup := by
    rw [dictSet_keys _ _ _ (by rw [hlook₁]; rfl)]
    exact hnd₁
  have hfk := filter_key_of_nodup _ tok _ hnd₂ hlook₂
  have htid : tidAlertCount tok telegram_id
      (dictSet s₁.price_alerts tok (alertsFor s tok ++ [(⟨telegram_id, hi₂, lo₂⟩ : Alert)]))
      = 1 := by
    unfold tidAlertCount
    rw [hfk]
    simp only [List.flatMap_cons, List.flatMap_nil, List.append_nil]
    rw [List.countP_eq_length_filter, hfilter]
    rfl
  simp only [alertsFor] at hlook₂ hfilter htid
  refine ⟨rfl, ?_, ?_, ?_⟩
  · simp only [alertsFor]
    rw [hlook₂]
    simp only [Option.getD_some]
    exact hfilter
  · simp only [alertsFor]
    rw [hlook₂]
    simp only [Option.getD_some]
    rw [List.countP_eq_length_filter, hfilter]
    rfl
  · intro env'
    simp only [checkPriceAlerts]
    have hb := countHigh_runPriceChecks_le env' telegram_id tok
      (dictSet s₁.price_alerts tok (alertsFor s tok ++ [(⟨telegram_id, hi₂, lo₂⟩ : Alert)]))
      s₁.token_data
    simp only [alertsFor] at hb
    rw [htid] at hb
    exact hb

/-- Witness for C5: registering twice for the same pair from an empty
store leaves exactly one subscription, carrying the second thresholds. -/
theorem register_overwrites_subscription_witness :
    (addPriceAlert ⟨fun _ => some (1, 0), fun _ => some (10, 1000), fun _ => true, fun _ _ => true⟩
        (addPriceAlert ⟨fun _ => some (1, 0), fun _ => some (10, 1000), fun _ => true, fun _ _ => true⟩
          ⟨[], []⟩ "u" "T" (some 2) none none).1
        "u" "T" (some 3) none none).2 = AddAlertResult.updated
    ∧ (alertsFor (addPriceAlert ⟨fun _ => some (1, 0), fun _ => some (10, 1000), fun _ => true, fun _ _ => true⟩
        (addPriceAlert ⟨fun _ => some (1, 0), fun _ => some (10, 1000), fun _ => true, fun _ _ => true⟩
          ⟨[], []⟩ "u" "T" (some 2) none none).1
        "u" "T" (some 3) none none).1 "T").countP
        (fun a => decide (a.telegram_id = "u")) = 1 := by
  have h := register_overwrites_subscription
    ⟨fun _ => some (1, 0), fun _ => some (10, 1000), fun _ => true, fun _ _ => true⟩
    ⟨fun _ => some (1, 0), fun _ => some (10, 1000), fun _ => true, fun _ _ => true⟩
    ⟨[], []⟩ "u" "T" (some 2) none (some 3) none rfl rfl
    (by intro a ha; simp [alertsFor, dictLookup] at ha) (by simp)
  exact ⟨h.1, h.2.2.1⟩

/-! ## C8: deactivating a copy-trade subscription -/

theorem scanWallets_no_match (cid : Nat) (g : Option ℚ) (sb : Option Bool)
    (m : Option ℚ) (l : List (String × List WalletConfig))
    (h : ∀ p ∈ l, ∀ c ∈ p.2, c.config_id ≠ cid) :
    scanWallets cid (some false) g sb m l = (l, false) := by
  induction l with
  | nil => rfl
  | cons p rest ih =>
    obtain ⟨w, cfgs⟩ := p
    have hfind : cfgs.findIdx? (fun c => c.config_id = cid) = none := by
      rw [List.findIdx?_eq_none_iff]
      intro c hc
      simpa using h (w, cfgs) (List.mem_cons_self _ _) c hc
    simp only [scanWallets, hfind]
    rw [ih (fun p hp c hc => h p (List.mem_cons_of_mem _ hp) c hc)]

theorem findIdx_append_cons {α : Type} (p : α → Bool) (l : List α) (b : α) (r : List α)
    (h : ∀ x ∈ l, ¬ p x) (hb : p b = true) :
    ∀ i, List.findIdx? p (l ++ b :: r) i = some (i + l.length) := by
  induction l with
  | nil =>
    intro i
    rw [List.nil_append, List.findIdx?_cons, if_pos hb]
    simp
  | cons x rest ih =>
    intro i
    have hx : ¬ (p x = true) := by simpa using h x (List.mem_cons_self x rest)
    rw [List.cons_append, List.findIdx?_cons, if_neg hx,
      ih (fun y hy => h y (List.mem_cons_of_mem x hy)) (i + 1)]
    simp only [List.length_cons]
    congr 1
    omega

theorem findIdx_append_cons_zero {α : Type} (p : α → Bool) (l : List α) (b : α)
    (r : List α) (h : ∀ x ∈ l, ¬ p x) (hb : p b = true) :
    (l ++ b :: r).findIdx? p = some l.length := by
  rw [show (l ++ b :: r).findIdx? p = List.findIdx? p (l ++ b :: r) 0 from rfl,
    findIdx_append_cons p l b r h hb 0]
  simp

theorem eraseIdx_append_cons {α : Type} (l : List α) (b : α) (r : List α) :
    (l ++ b :: r).eraseIdx l.length = l ++ r := by
  induction l with
  | nil => rfl
  | cons x rest ih => simp [List.eraseIdx, ih]

theorem scanWallets_deactivate (pre post : List (String × List WalletConfig))
    (w : String) (a b : List WalletConfig) (cdel : WalletConfig)
    (g : Option ℚ) (sb : Option Bool) (m : Option ℚ)
    (hpre : ∀ p ∈ pre, ∀ c ∈ p.2, c.config_id ≠ cdel.config_id)
    (hpost : ∀ p ∈ post, ∀ c ∈ p.2, c.config_id ≠ cdel.config_id)
    (ha : ∀ c ∈ a, c.config_id ≠ cdel.config_id) :
    scanWallets cdel.config_id (some false) g sb m (pre ++ (w, a ++ cdel :: b) :: post)
      = (pre ++ (if (a ++ b).isEmpty then post else (w, a ++ b) :: post),
         (a ++ b).isEmpty) := by
  induction pre with
  | nil =>
    have hfind : (a ++ cdel :: b).findIdx? (fun c => c.config_id = cdel.config_id)
        = some a.length :=
      findIdx_append_cons_zero _ a cdel b
        (fun x hx => by simpa using ha x hx) (by simp)
    simp only [List.nil_append, scanWallets, hfind]
    rw [eraseIdx_append_cons]
    by_cases he : (a ++ b).isEmpty
    · simp [he]
    · simp [he, scanWallets_no_match _ _ _ _ post hpost]
  | cons p rest ih =>
    obtain ⟨w', cfgs⟩ := p
    have hfind : cfgs.findIdx? (fun c => c.config_id = cdel.config_id) = none := by
      rw [List.findIdx?_eq_none_iff]
      intro c hc
      simpa using hpre (w', cfgs) (List.mem_cons_self _ _) c hc
    rw [List.cons_append]
    simp only [scanWallets, hfind]
    rw [ih (fun p hp c hc => hpre p (List.mem_cons_of_mem _ hp) c hc)]
    simp

theorem dbUpdate_deactivate_mem (cid : Nat) (db : List DBConfig)
    (h : ∃ row ∈ db, row.id = cid) :
    ∃ db', dbUpdate cid (some false) none none none db = some db'
      ∧ ∃ row ∈ db', row.id = cid ∧ row.active = false := by
  induction db with
  | nil => simp at h
  | cons row rest ih =>
    by_cases hr : row.id = cid
    · refine ⟨{ row with active := false } :: rest, ?_, ?_⟩
      · simp [dbUpdate, hr]
      · exact ⟨{ row with active := false }, List.mem_cons_self _ _, hr, rfl⟩
    · obtain ⟨row', hmem, hid⟩ := h
      rcases List.mem_cons.mp hmem with he | hmem'
      · exact absurd (he ▸ hid) hr
      · obtain ⟨db', hdb, row'', hmem'', hprop⟩ := ih ⟨row', hmem', hid⟩
        exact ⟨row :: db', by simp [dbUpdate, hr, hdb],
          row'', List.mem_cons_of_mem _ hmem'', hprop⟩

/-- C8: deactivating a copy-trade subscription removes exactly that
subscription from the in-memory matching set (all other wallets and all
other subscriptions on the same wallet are untouched), keeps the database
row as persisted history with `active = false`, leaves the processed set
alone, and a subsequent matching transaction mirrors every remaining
subscription on that wallet unchanged while producing no intent for the
deactivated one. -/
theorem deactivate_removes_only_that_subscription
    (env env' : CopyEnv) (s : CopyState) (telegram_id : String)
    (pre post : List (String × List WalletConfig)) (w : String)
    (a b : List WalletConfig) (cdel : WalletConfig)
    (hmw : s.monitored_wallets = pre ++ (w, a ++ cdel :: b) :: post)
    (hpre : ∀ p ∈ pre, ∀ c ∈ p.2, c.config_id ≠ cdel.config_id)
    (hpost : ∀ p ∈ post, ∀ c ∈ p.2, c.config_id ≠ cdel.config_id)
    (ha : ∀ c ∈ a, c.config_id ≠ cdel.config_id)
    (hb : ∀ c ∈ b, c.config_id ≠ cdel.config_id)
    (hwpre : ∀ p ∈ pre, p.1 ≠ w)
    (hu : env.userExists telegram_id = true)
    (hdb : ∃ row ∈ s.db, row.id = cdel.config_id) :
    (updateCopyTrading env s telegram_id cdel.config_id
        (some false) none none none).1.monitored_wallets
      = pre ++ (if (a ++ b).isEmpty then post else (w, a ++ b) :: post)
    ∧ (∃ row ∈ (updateCopyTrading env s telegram_id cdel.config_id
          (some false) none none none).1.db,
        row.id = cdel.config_id ∧ row.active = false)
    ∧ (updateCopyTrading env s telegram_id cdel.config_id
        (some false) none none none).1.processed_transactions
      = s.processed_transactions
    ∧ ∀ tx : Tx, tx.sender = w → tx.hash ∉ s.processed_transactions →
        (a ++ b).isEmpty = false →
        (processTransaction env' (updateCopyTrading env s telegram_id cdel.config_id
            (some false) none none none).1 tx).2
          = (a ++ b).filterMap (fun c =>
              if env'.userHasWalletAndKey c.telegram_id then
                some ⟨c.telegram_id, c.config_id, c.slippage_guard, c.max_eth_per_trade,
                  c.sandbox_mode, tx.hash⟩
              else none)
        ∧ ∀ i ∈ (processTransaction env' (updateCopyTrading env s telegram_id
            cdel.config_id (some false) none none none).1 tx).2,
            i.config_id ≠ cdel.config_id := by
  obtain ⟨db', hdbeq, row, hrowmem, hrowid, hrowact⟩ :=
    dbUpdate_deactivate_mem cdel.config_id s.db hdb
  have hscan := scanWallets_deactivate pre post w a b cdel none none none hpre hpost ha
  have hupd : updateCopyTrading env s telegram_id cdel.config_id (some false) none none none
      = ({ s with
            db := db',
            monitored_wallets :=
              pre ++ (if (a ++ b).isEmpty then post else (w, a ++ b) :: post) },
         if (a ++ b).isEmpty then UpdateResult.runtimeErrorAfterDelete
         else UpdateResult.success) := by
    simp only [updateCopyTrading, hu, not_true, Bool.not_eq_true, if_false, hdbeq,
      hmw, hscan]
  refine ⟨by rw [hupd], ?_, by rw [hupd], ?_⟩
  · rw [hupd]
    exact ⟨row, hrowmem, hrowid, hrowact⟩
  · intro tx hsender hfresh hne
    subst hsender
    rw [hupd]
    simp only [hne, Bool.false_eq_true, if_false]
    have hnokey : tx.sender ∉ pre.map Prod.fst := by
      intro hmm
      obtain ⟨p, hp, hpe⟩ := List.mem_map.mp hmm
      exact hwpre p hp hpe
    have hkey : dictLookup (pre ++ (tx.sender, a ++ b) :: post) tx.sender
        = some (a ++ b) := by
      rw [dictLookup_append_none pre _ tx.sender
        (dictLookup_none_of_not_key pre tx.sender hnokey)]
      simp [dictLookup]
    have hval : (processTransaction env'
        ({ s with
            db := db',
            monitored_wallets := pre ++ (tx.sender, a ++ b) :: post } : CopyState) tx).2
        = (a ++ b).filterMap (fun c =>
            if env'.userHasWalletAndKey c.telegram_id then
              some ⟨c.telegram_id, c.config_id, c.slippage_guard, c.max_eth_per_trade,
                c.sandbox_mode, tx.hash⟩
            else none) := by
      simp only [processTransaction]
      rw [if_neg hfresh]
      simp only [hkey]
    refine ⟨hval, ?_⟩
    intro i hi
    rw [hval] at hi
    obtain ⟨c, hc, hci⟩ := List.mem_filterMap.mp hi
    by_cases huser : env'.userHasWalletAndKey c.telegram_id = true
    · rw [if_pos huser] at hci
      have hic : i.config_id = c.config_id := by
        cases hci
        rfl
      rw [hic]
      rcases List.mem_append.mp hc with hmem | hmem
      · exact ha c hmem
      · exact hb c hmem
    · rw [if_neg huser] at hci
      cases hci

/-- Witness for C8: two subscriptions on wallet `W`; deactivating config 0
leaves only config 1 in the matching set, and a fresh transaction from `W`
mirrors only config 1. -/
theorem deactivate_removes_only_that_subscription_witness :
    (updateCopyTrading (⟨fun _ => true, fun _ => true, fun _ => true, fun _ => true⟩ : CopyEnv)
        (⟨[("W", [(⟨"u1", 0, 5, 1, true, none⟩ : WalletConfig),
              (⟨"u2", 1, 3, 2, false, none⟩ : WalletConfig)])], [],
          [(⟨0, "u1", "W", 5, true, true, 1⟩ : DBConfig),
            (⟨1, "u2", "W", 3, true, false, 2⟩ : DBConfig)], 2⟩ : CopyState)
        "u1" 0 (some false) none none none).1.monitored_wallets
      = [] ++ (if (([] : List WalletConfig)
            ++ [(⟨"u2", 1, 3, 2, false, none⟩ : WalletConfig)]).isEmpty
          then []
          else ("W", ([] : List WalletConfig)
            ++ [(⟨"u2", 1, 3, 2, false, none⟩ : WalletConfig)]) :: [])
    ∧ (processTransaction (⟨fun _ => true, fun _ => true, fun _ => true, fun _ => true⟩ : CopyEnv)
        (updateCopyTrading (⟨fun _ => true, fun _ => true, fun _ => true, fun _ => true⟩ : CopyEnv)
          (⟨[("W", [(⟨"u1", 0, 5, 1, true, none⟩ : WalletConfig),
                (⟨"u2", 1, 3, 2, false, none⟩ : WalletConfig)])], [],
            [(⟨0, "u1", "W", 5, true, true, 1⟩ : DBConfig),
              (⟨1, "u2", "W", 3, true, false, 2⟩ : DBConfig)], 2⟩ : CopyState)
          "u1" 0 (some false) none none none).1 (⟨"0xabc", "W", "R", 1⟩ : Tx)).2
      = (([] : List WalletConfig)
          ++ [(⟨"u2", 1, 3, 2, false, none⟩ : WalletConfig)]).filterMap
          (fun c : WalletConfig =>
            if (⟨fun _ => true, fun _ => true, fun _ => true,
                fun _ => true⟩ : CopyEnv).userHasWalletAndKey c.telegram_id then
              some (⟨c.telegram_id, c.config_id, c.slippage_guard, c.max_eth_per_trade,
                c.sandbox_mode, "0xabc"⟩ : MirrorIntent)
            else none) := by
  have h := deactivate_removes_only_that_subscription
    (⟨fun _ => true, fun _ => true, fun _ => true, fun _ => true⟩ : CopyEnv)
    (⟨fun _ => true, fun _ => true, fun _ => true, fun _ => true⟩ : CopyEnv)
    (⟨[("W", [(⟨"u1", 0, 5, 1, true, none⟩ : WalletConfig),
          (⟨"u2", 1, 3, 2, false, none⟩ : WalletConfig)])], [],
      [(⟨0, "u1", "W", 5, true, true, 1⟩ : DBConfig),
        (⟨1, "u2", "W", 3, true, false, 2⟩ : DBConfig)], 2⟩ : CopyState)
    "u1" [] [] "W" [] [(⟨"u2", 1, 3, 2, false, none⟩ : WalletConfig)]
    (⟨"u1", 0, 5, 1, true, none⟩ : WalletConfig)
    rfl (by simp) (by simp) (by simp) (by decide) (by simp) rfl
    ⟨(⟨0, "u1", "W", 5, true, true, 1⟩ : DBConfig), List.mem_cons_self _ _, rfl⟩
  exact ⟨h.1, (h.2.2.2 (⟨"0xabc", "W", "R", 1⟩ : Tx) rfl (by decide) (by decide)).1⟩
